import Mathlib

/-!
Verification development for the market-analysis core of the
real-estate-market-analysis repository.

The Python sources (src/market/analyzer.py, orchestrator.py,
nadlan_client.py, yad2_client.py, ai_summary.py, models.py) are shallowly
embedded below:

* Python floats are modelled as exact rationals (ℚ);
* Python `date` values are modelled by their day ordinal (ℤ); subtraction
  of two dates yields exactly the difference of ordinals, so recency
  arithmetic is preserved;
* Python `round` (banker's rounding, half to even) is modelled by
  `pyRound`; `round(x, 1)` by `pyRound1`;
* `Optional[T]` fields are `Option`; Python truthiness of an optional
  number (`if x:` is false for `None` and for `0`) is modelled by
  `qTruthy` / `iTruthy`;
* strings are manipulated at the character-list level, mirroring the
  Python string operations used by the code (strip, split(","),
  first-digit-run search, substring test).
-/

namespace REMarket

/-- Banker's rounding on rationals: Python's builtin `round` to an integer
(half goes to the even neighbour). -/
def pyRound (q : ℚ) : ℤ :=
  let f := ⌊q⌋
  if q - f < 1/2 then f
  else if 1/2 < q - f then f + 1
  else if f % 2 = 0 then f else f + 1

/-- Python's `round(x, 1)`: banker's rounding to one decimal digit. -/
def pyRound1 (q : ℚ) : ℚ := (pyRound (q * 10) : ℚ) / 10

/-- Truthiness of an optional rational: Python `if x:` on an
`Optional[float]` is true iff the value is present and non-zero. -/
def qTruthy : Option ℚ → Bool
  | some x => x != 0
  | none => false

/-- Truthiness of an optional integer (`Optional[int]` in Python). -/
def iTruthy : Option ℤ → Bool
  | some x => x != 0
  | none => false

/-- List comprehension `[x for x in l if x]` over optional rationals:
keep the truthy values. -/
def truthyQVals (l : List (Option ℚ)) : List ℚ :=
  l.filterMap fun o => match o with
    | some x => if x != 0 then some x else none
    | none => none

/-- List comprehension `[x for x in l if x]` over optional integers. -/
def truthyIVals (l : List (Option ℤ)) : List ℤ :=
  l.filterMap fun o => match o with
    | some x => if x != 0 then some x else none
    | none => none

/-- Mean of a list of rationals (`sum(l) / len(l)`). -/
def listMean (l : List ℚ) : ℚ := l.sum / l.length

/-- Insert into a sorted list, used to model Python's `sorted`. -/
def insertSorted (le : α → α → Bool) (x : α) : List α → List α
  | [] => [x]
  | y :: ys => if le x y then x :: y :: ys else y :: insertSorted le x ys

/-- Model of Python's `sorted` (insertion sort; the lists sorted by the
embedded code consist of pairwise distinct keys, so stability is moot). -/
def sortBy (le : α → α → Bool) (l : List α) : List α :=
  l.foldr (insertSorted le) []

/-- First-occurrence deduplication, used to model iteration over the keys
of a Python dict populated in input order. -/
def distinctList [DecidableEq α] (l : List α) : List α :=
  l.foldl (fun acc x => if x ∈ acc then acc else acc ++ [x]) []

/-! ### String helpers (character-list level) -/

/-- Python `str.strip()`: drop whitespace from both ends. -/
def trimL (l : List Char) : List Char :=
  ((l.dropWhile Char.isWhitespace).reverse.dropWhile Char.isWhitespace).reverse

/-- Python `s.split(sep)` for a one-character separator (never returns an
empty list, like its Python counterpart). -/
def splitOnChar (sep : Char) : List Char → List (List Char)
  | [] => [[]]
  | c :: cs =>
    let rest := splitOnChar sep cs
    if c = sep then [] :: rest
    else match rest with
      | [] => [[c]]
      | r :: rs => (c :: r) :: rs

/-- Model of `re.search(r"(\d+)", s)`: locate the first maximal run of
digits, returning `(prefix before the run, the digit run)`, or `none`
when the string has no digit. -/
def splitAtFirstDigits : List Char → Option (List Char × List Char)
  | [] => none
  | c :: cs =>
    if c.isDigit then some ([], (c :: cs).takeWhile Char.isDigit)
    else match splitAtFirstDigits cs with
      | none => none
      | some (pre, digs) => some (c :: pre, digs)

/-! ### Data model (src/market/models.py)

Fields not consulted by any embedded function (building_floors,
deal_nature, gush, parcel, trend flag, listing id/images/description/url)
are omitted from the structures. -/

/-- Transaction record from nadlan.gov.il (`NadlanTransaction`).
`deal_date` is the day ordinal of the Python `date`. -/
structure NadlanTransaction where
  address : String := ""
  deal_amount : ℚ := 0
  deal_date : Option ℤ := none
  rooms : Option ℚ := none
  floor : Option ℤ := none
  size_sqm : Option ℚ := none
  building_year : Option ℤ := none
  property_type : String := ""
deriving DecidableEq, Repr

/-- Computed field `NadlanTransaction.price_per_sqm`:
`round(deal_amount / size_sqm)` when `size_sqm` is truthy and positive and
`deal_amount` is positive, else `None`. -/
def NadlanTransaction.price_per_sqm (tx : NadlanTransaction) : Option ℚ :=
  match tx.size_sqm with
  | some s =>
    if s != 0 && decide (0 < s) && decide (0 < tx.deal_amount)
    then some ((pyRound (tx.deal_amount / s) : ℤ) : ℚ)
    else none
  | none => none

/-- Listing record from Yad2 (`Yad2Listing`). `date_listed` is a day
ordinal. -/
structure Yad2Listing where
  address : String := ""
  price : ℚ := 0
  rooms : Option ℚ := none
  floor : Option ℤ := none
  size_sqm : Option ℚ := none
  property_type : String := ""
  date_listed : Option ℤ := none
  city : String := ""
  neighborhood : String := ""
  street : String := ""
  building_year : Option ℤ := none
deriving DecidableEq, Repr

/-- Computed field `Yad2Listing.price_per_sqm`. -/
def Yad2Listing.price_per_sqm (l : Yad2Listing) : Option ℚ :=
  match l.size_sqm with
  | some s =>
    if s != 0 && decide (0 < s) && decide (0 < l.price)
    then some ((pyRound (l.price / s) : ℤ) : ℚ)
    else none
  | none => none

/-- Source-agnostic comparable (`ComparableProperty`). -/
structure ComparableProperty where
  source : String
  address : String
  price : ℚ
  rooms : Option ℚ := none
  floor : Option ℤ := none
  size_sqm : Option ℚ := none
  building_year : Option ℤ := none
  deal_date : Option ℤ := none
  property_type : String := ""
  is_listed : Bool := false
deriving DecidableEq, Repr

/-- Computed field `ComparableProperty.price_per_sqm`. -/
def ComparableProperty.price_per_sqm (c : ComparableProperty) : Option ℚ :=
  match c.size_sqm with
  | some s =>
    if s != 0 && decide (0 < s) && decide (0 < c.price)
    then some ((pyRound (c.price / s) : ℤ) : ℚ)
    else none
  | none => none

/-- Result row of the floor analysis (`FloorPriceAnalysis`). -/
structure FloorPriceAnalysis where
  floor : ℤ
  avg_price_per_sqm : ℤ
  transaction_count : ℕ
  avg_total_price : ℤ
deriving DecidableEq, Repr

/-- Result row of the building-age analysis (`BuildingAgeAnalysis`). -/
structure BuildingAgeAnalysis where
  category : String
  avg_price_per_sqm : ℤ
  transaction_count : ℕ
  avg_building_year : Option ℤ := none
  price_premium_pct : Option ℚ := none
deriving DecidableEq, Repr

/-- Result row of the trend analysis (`PriceTrend`). -/
structure PriceTrend where
  period : String
  avg_price_per_sqm : ℤ
  transaction_count : ℕ
  change_pct : Option ℚ := none
deriving DecidableEq, Repr

/-- Result of the value estimator (`ValueEstimation`); the four price
fields hold results of Python's `round`, hence integers. -/
structure ValueEstimation where
  estimated_price_low : ℤ
  estimated_price_mid : ℤ
  estimated_price_high : ℤ
  estimated_price_per_sqm : ℤ
  confidence : String := "בינוני"
  comparable_count : ℕ := 0
  methodology : String := ""
deriving DecidableEq, Repr

/-- Parsed address components (the dict returned by
`parse_address_parts`). -/
structure AddressParts where
  street : String := ""
  number : String := ""
  city : String := ""
  neighborhood : String := ""
deriving DecidableEq, Repr

/-- Aggregate report (`MarketAnalysisReport`); `nearby_places` and
`report_date` are never written by the embedded pipeline and are
omitted. -/
structure MarketAnalysisReport where
  subject_address : String
  subject_property_type : String
  subject_city : String := ""
  subject_neighborhood : String := ""
  subject_street : String := ""
  transactions : List NadlanTransaction := []
  current_listings : List Yad2Listing := []
  comparables : List ComparableProperty := []
  floor_analysis : List FloorPriceAnalysis := []
  building_age_analysis : List BuildingAgeAnalysis := []
  price_trends : List PriceTrend := []
  value_estimation : Option ValueEstimation := none
  ai_summary : String := ""
  data_sources_used : List String := []
  errors : List String := []
deriving DecidableEq, Repr

/-! ### Address parser (analyzer.py, `parse_address_parts`) -/

/-- Model of `re.sub(r"^רחוב\s+", "", s)`: remove a leading "רחוב"
followed by one or more whitespace characters (and that whitespace). -/
def stripStreetWord (l : List Char) : List Char :=
  match l with
  | 'ר' :: 'ח' :: 'ו' :: 'ב' :: c :: rest =>
    if c.isWhitespace then rest.dropWhile Char.isWhitespace
    else l
  | _ => l

/-- Embedding of `parse_address_parts` (analyzer.py lines 25-60). -/
def parse_address_parts (address : String) : AddressParts :=
  let clean := stripStreetWord (trimL address.data)
  let segments := (splitOnChar ',' clean).map trimL
  let cityPart : List Char :=
    if 2 ≤ segments.length then trimL (segments.getLast!) else []
  let street_part : List Char :=
    if 2 ≤ segments.length then trimL segments.head!
    else if segments.length = 1 then trimL segments.head!
    else []
  let streetNumber : List Char × List Char :=
    match splitAtFirstDigits street_part with
    | some (pre, digs) => (trimL pre, digs)
    | none => (street_part, [])
  { street := String.mk streetNumber.1
    number := String.mk streetNumber.2
    city := String.mk cityPart
    neighborhood :=
      if segments.length = 3 then String.mk (trimL segments[1]!) else "" }

/-! ### Comparable merging (analyzer.py, `build_comparables`) -/

/-- Embedding of `build_comparables` (analyzer.py lines 63-100). -/
def build_comparables (transactions : List NadlanTransaction)
    (listings : List Yad2Listing) : List ComparableProperty :=
  (transactions.map fun tx =>
    { source := "nadlan.gov.il"
      address := tx.address
      price := tx.deal_amount
      rooms := tx.rooms
      floor := tx.floor
      size_sqm := tx.size_sqm
      building_year := tx.building_year
      deal_date := tx.deal_date
      property_type := tx.property_type
      is_listed := false }) ++
  (listings.map fun l =>
    { source := "yad2"
      address := l.address
      price := l.price
      rooms := l.rooms
      floor := l.floor
      size_sqm := l.size_sqm
      building_year := l.building_year
      deal_date := l.date_listed
      property_type := l.property_type
      is_listed := true })

/-! ### Floor analysis (analyzer.py, `analyze_floor_prices`) -/

/-- Bucket of `floor_data` for one floor key: the priced transactions at
that floor, in input order. -/
def floorTxs (transactions : List NadlanTransaction) (f : ℤ) :
    List NadlanTransaction :=
  transactions.filter fun tx =>
    tx.floor == some f && decide (0 < tx.deal_amount)

/-- Embedding of `analyze_floor_prices` (analyzer.py lines 103-127):
keys of `floor_data` sorted ascending, one row per floor having both a
per-sqm price list and a total-price list. -/
def analyze_floor_prices (transactions : List NadlanTransaction) :
    List FloorPriceAnalysis :=
  let keys := sortBy (fun a b => decide (a ≤ b))
    (distinctList (transactions.filterMap fun tx =>
      if decide (0 < tx.deal_amount) then tx.floor else none))
  keys.filterMap fun f =>
    let txs := floorTxs transactions f
    let sqm_prices := truthyQVals (txs.map (·.price_per_sqm))
    let total_prices := txs.map (·.deal_amount)
    if sqm_prices != [] && total_prices != [] then
      some { floor := f
             avg_price_per_sqm := pyRound (listMean sqm_prices)
             transaction_count := txs.length
             avg_total_price := pyRound (listMean total_prices) }
    else none

/-! ### Building-age analysis (analyzer.py, `analyze_building_age`) -/

/-- Fixed bracket table of `analyze_building_age`: label, low bound, high
bound (the code's last bracket is capped at 200 years). -/
def ageCategories : List (String × ℤ × ℤ) :=
  [("חדש (0-5 שנים)", (0, 5)),
   ("חדש יחסית (6-15 שנים)", (6, 15)),
   ("ותיק (16-30 שנים)", (16, 30)),
   ("ישן (30+ שנים)", (31, 200))]

/-- Guard of the bucketing loop: truthy `building_year`, year > 1900 and
positive deal amount. -/
def validForAge (tx : NadlanTransaction) : Bool :=
  iTruthy tx.building_year &&
    decide (1900 < tx.building_year.getD 0) &&
    decide (0 < tx.deal_amount)

/-- Category label a transaction is bucketed under (first bracket whose
range contains `current_year - building_year`, per the loop's `break`),
or `none` when the guard fails or no bracket matches. -/
def ageCategoryOf (current_year : ℤ) (tx : NadlanTransaction) :
    Option String :=
  if validForAge tx then
    (ageCategories.find? fun c =>
      decide (c.2.1 ≤ current_year - tx.building_year.getD 0) &&
        decide (current_year - tx.building_year.getD 0 ≤ c.2.2)).map (·.1)
  else none

/-- Bucket of `age_data` for one category label, in input order. -/
def age_data (current_year : ℤ) (transactions : List NadlanTransaction)
    (cat : String) : List NadlanTransaction :=
  transactions.filter fun tx => ageCategoryOf current_year tx == some cat

/-- Embedding of `analyze_building_age` (analyzer.py lines 130-179).
The overall average is order-independent (a quotient of a sum by a
length), so collecting the bucketed per-sqm prices in fixed category
order is equivalent to the dict-value iteration of the source. -/
def analyze_building_age (current_year : ℤ)
    (transactions : List NadlanTransaction) : List BuildingAgeAnalysis :=
  let all_sqm_prices := (ageCategories.map fun c =>
    truthyQVals ((age_data current_year transactions c.1).map
      (·.price_per_sqm))).flatten
  let overall_avg : ℚ :=
    if all_sqm_prices != [] then listMean all_sqm_prices else 0
  ageCategories.filterMap fun c =>
    let txs := age_data current_year transactions c.1
    if txs = [] then none
    else
      let sqm_prices := truthyQVals (txs.map (·.price_per_sqm))
      let years := truthyIVals (txs.map (·.building_year))
      if sqm_prices != [] then
        let avg_sqm := listMean sqm_prices
        let premium : Option ℚ :=
          if 0 < overall_avg
          then some ((avg_sqm - overall_avg) / overall_avg * 100)
          else none
        some { category := c.1
               avg_price_per_sqm := pyRound avg_sqm
               transaction_count := txs.length
               avg_building_year :=
                 if years != []
                 then some (pyRound (((years.map (Rat.ofInt)).sum) / years.length))
                 else none
               price_premium_pct := premium.map pyRound1 }
      else none

/-! ### Trend analysis (analyzer.py, `analyze_price_trends`)

The quarter key needs the calendar year and month of a deal date; the
conversion from a day ordinal to its Gregorian year and month is taken
as an abstract parameter pair `(yearOf, monthOf)` since no analysed
property depends on the calendar itself. -/

/-- Quarter label `f"{year}-Q{quarter}"` of a day ordinal. -/
def periodOf (yearOf monthOf : ℤ → ℤ) (d : ℤ) : String :=
  let q := (monthOf d - 1).fdiv 3 + 1
  toString (yearOf d) ++ "-Q" ++ toString q

/-- Bucket of `quarter_data` for one period key: per-sqm prices of dated,
priced transactions, in input order. -/
def trendPrices (yearOf monthOf : ℤ → ℤ)
    (transactions : List NadlanTransaction) (p : String) : List ℚ :=
  transactions.filterMap fun tx =>
    match tx.deal_date with
    | some d =>
      if qTruthy tx.price_per_sqm && periodOf yearOf monthOf d == p
      then tx.price_per_sqm
      else none
    | none => none

/-- Inner loop of `analyze_price_trends`, threading `prev_avg`. -/
def trendLoop (yearOf monthOf : ℤ → ℤ)
    (transactions : List NadlanTransaction) (prev_avg : Option ℤ) :
    List String → List PriceTrend
  | [] => []
  | p :: rest =>
    let prices := trendPrices yearOf monthOf transactions p
    let avg := pyRound (listMean prices)
    let change : Option ℚ :=
      match prev_avg with
      | some pa =>
        if pa != 0 && decide (0 < pa)
        then some (pyRound1 (((avg : ℚ) - (pa : ℚ)) / (pa : ℚ) * 100))
        else none
      | none => none
    { period := p
      avg_price_per_sqm := avg
      transaction_count := prices.length
      change_pct := change } ::
      trendLoop yearOf monthOf transactions (some avg) rest

/-- Embedding of `analyze_price_trends` (analyzer.py lines 182-214). -/
def analyze_price_trends (yearOf monthOf : ℤ → ℤ)
    (transactions : List NadlanTransaction) : List PriceTrend :=
  let keys := distinctList (transactions.filterMap fun tx =>
    match tx.deal_date with
    | some d =>
      if qTruthy tx.price_per_sqm then some (periodOf yearOf monthOf d)
      else none
    | none => none)
  let sorted_periods := sortBy (fun a b => decide (a ≤ b)) keys
  trendLoop yearOf monthOf transactions none sorted_periods

/-! ### Value estimation (analyzer.py, `estimate_value`) -/

/-- Recency block of the weight loop (analyzer.py lines 250-258):
`weight *= 1.5 / 1.2 / 0.6` by deal age in 30-day months, unchanged
without a date. -/
def recencyStep (today : ℤ) (c_deal_date : Option ℤ) (weight : ℚ) : ℚ :=
  match c_deal_date with
  | some d =>
    let months_ago : ℚ := ((today - d : ℤ) : ℚ) / 30
    if months_ago ≤ 6 then weight * 1.5
    else if months_ago ≤ 12 then weight * 1.2
    else if 36 < months_ago then weight * 0.6
    else weight
  | none => weight

/-- Room-similarity block of the weight loop (analyzer.py lines
260-268). -/
def roomStep (subject_rooms c_rooms : Option ℚ) (weight : ℚ) : ℚ :=
  if qTruthy subject_rooms && qTruthy c_rooms then
    let room_diff := |subject_rooms.getD 0 - c_rooms.getD 0|
    if room_diff = 0 then weight * 1.3
    else if room_diff ≤ 1 then weight * 1.0
    else weight * 0.7
  else weight

/-- Floor-similarity block of the weight loop (analyzer.py lines
270-276). -/
def floorStep (subject_floor c_floor : Option ℤ) (weight : ℚ) : ℚ :=
  match subject_floor, c_floor with
  | some sf, some cf =>
    let floor_diff := |sf - cf|
    if floor_diff ≤ 1 then weight * 1.2
    else if 5 < floor_diff then weight * 0.8
    else weight
  | _, _ => weight

/-- Building-age block of the weight loop (analyzer.py lines 278-284). -/
def ageStep (subject_building_year c_building_year : Option ℤ)
    (weight : ℚ) : ℚ :=
  if iTruthy subject_building_year && iTruthy c_building_year then
    let age_diff := |subject_building_year.getD 0 - c_building_year.getD 0|
    if age_diff ≤ 5 then weight * 1.2
    else if 20 < age_diff then weight * 0.8
    else weight
  else weight

/-- Per-comparable weight of `estimate_value` (analyzer.py lines 247-287):
starts at 1.0 and passes through the recency, room, floor and
building-age blocks in the source's order. `today` is the day ordinal of
`datetime.now().date()`. -/
def compWeight (today : ℤ) (subject_rooms : Option ℚ)
    (subject_floor : Option ℤ) (subject_building_year : Option ℤ)
    (comp : ComparableProperty) : ℚ :=
  ageStep subject_building_year comp.building_year
    (floorStep subject_floor comp.floor
      (roomStep subject_rooms comp.rooms
        (recencyStep today comp.deal_date 1.0)))

/-- Filter for closed transactions usable as comparables
(`not c.is_listed and c.price_per_sqm and c.price > 0`). -/
def closedValid (comparables : List ComparableProperty) :
    List ComparableProperty :=
  comparables.filter fun c =>
    !c.is_listed && qTruthy c.price_per_sqm && decide (0 < c.price)

/-- Fallback filter including listings
(`c.price_per_sqm and c.price > 0`). -/
def allValid (comparables : List ComparableProperty) :
    List ComparableProperty :=
  comparables.filter fun c => qTruthy c.price_per_sqm && decide (0 < c.price)

/-- Candidate pool of `estimate_value` (analyzer.py lines 231-236):
closed transactions, or every usable comparable when fewer than 3 closed
transactions exist. -/
def validPool (comparables : List ComparableProperty) :
    List ComparableProperty :=
  let valid := closedValid comparables
  if valid.length < 3 then allValid comparables else valid

/-- Embedding of `estimate_value` (analyzer.py lines 217-320). -/
def estimate_value (today : ℤ) (comparables : List ComparableProperty)
    (subject_rooms : Option ℚ := none) (subject_floor : Option ℤ := none)
    (subject_size : Option ℚ := none)
    (subject_building_year : Option ℤ := none) : Option ValueEstimation :=
  let valid := validPool comparables
  if valid = [] then none
  else
    let weights := valid.map
      (compWeight today subject_rooms subject_floor subject_building_year)
    let weighted_prices := valid.map fun c =>
      c.price_per_sqm.getD 0 *
        compWeight today subject_rooms subject_floor subject_building_year c
    if weights = [] then none
    else
      let avg_price_sqm := weighted_prices.sum / weights.sum
      let size : ℚ :=
        if qTruthy subject_size then subject_size.getD 0
        else
          let sizes := valid.filterMap fun c =>
            match c.size_sqm with
            | some s => if s != 0 && decide (0 < s) then some s else none
            | none => none
          if sizes != [] then listMean sizes else 80
      let mid_price := avg_price_sqm * size
      let low_price := mid_price * 0.92
      let high_price := mid_price * 1.08
      let confidence :=
        if 10 ≤ valid.length then "גבוה"
        else if 5 ≤ valid.length then "בינוני"
        else "נמוך"
      some { estimated_price_low := pyRound low_price
             estimated_price_mid := pyRound mid_price
             estimated_price_high := pyRound high_price
             estimated_price_per_sqm := pyRound avg_price_sqm
             confidence := confidence
             comparable_count := valid.length
             methodology :=
               "ממוצע משוקלל של עסקאות דומות עם התאמות לגודל, קומה, גיל בניין ועדכניות" }

/-- Leading-match test: does `needle` occur at the head of `hay`? -/
def matchesAt [DecidableEq α] : List α → List α → Bool
  | [], _ => true
  | _ :: _, [] => false
  | a :: as, b :: bs => a = b && matchesAt as bs

/-- Python's substring test `needle in hay` on character lists. -/
def containsSeq [DecidableEq α] (needle : List α) : List α → Bool
  | [] => matchesAt needle []
  | b :: bs => matchesAt needle (b :: bs) || containsSeq needle bs

/-! ### Transaction fetch loop (nadlan_client.py, `get_transactions`)

A raw upstream page is modelled at record granularity: each raw record is
represented by the `NadlanTransaction` that `_parse_transaction` produces
from it (`_parse_transaction` is total and never raises — every field is
defaulted independently). A page outcome is `none` when the page fetch
failed (no response after retries, or an exception, which breaks the
loop) and `some (results, isLast)` for a parsed response. -/

/-- One upstream page: parsed records plus the `IsLastPage` flag. -/
def NadlanPage := List NadlanTransaction × Bool

/-- Page loop of `get_transactions` (nadlan_client.py lines 234-283):
stop on a failed fetch, an empty result list, or the last-page flag;
otherwise keep the positive-amount records and continue. -/
def getTransactionsLoop : List (Option NadlanPage) → List NadlanTransaction
  | [] => []
  | none :: _ => []
  | some (results, isLast) :: rest =>
    if results = [] then []
    else
      (results.filter fun tx => decide (0 < tx.deal_amount)) ++
        (if isLast then [] else getTransactionsLoop rest)

/-- Embedding of `get_transactions` (nadlan_client.py lines 224-286):
iterate over at most `max_pages` pages. -/
def get_transactions (pages : List (Option NadlanPage)) (max_pages : ℕ) :
    List NadlanTransaction :=
  getTransactionsLoop (pages.take max_pages)

/-! ### Listing search loop (yad2_client.py, `search_listings`)

A feed item is modelled by its type tag together with the listing
`_parse_listing` returns for it (`none` when parsing raised). A page
outcome is `none` for a 403 block, an HTTP error or any exception (all
of which break the loop), and `some page` for a parsed response. -/

/-- One feed page: items (type tag, parse result) plus `total_pages`. -/
structure Yad2Page where
  items : List (String × Option Yad2Listing)
  total_pages : ℕ
deriving DecidableEq

/-- Item filter of the page loop: skip ad-type items, failed parses,
non-positive prices, and neighborhood mismatches. -/
def yad2KeepItem (neighborhood : String) (it : String × Option Yad2Listing) :
    Option Yad2Listing :=
  if it.1 = "ad" ∨ it.1 = "banner" ∨ it.1 = "commercialContent" then none
  else
    match it.2 with
    | some listing =>
      if 0 < listing.price then
        if neighborhood ≠ "" ∧
            containsSeq neighborhood.data listing.neighborhood.data = false
        then none
        else some listing
      else none
    | none => none

/-- Page loop of `search_listings` (yad2_client.py lines 178-227). -/
def searchListingsLoop (neighborhood : String) :
    ℕ → List (Option Yad2Page) → List Yad2Listing
  | _, [] => []
  | _, none :: _ => []
  | page, some p :: rest =>
    if p.items = [] then []
    else
      (p.items.filterMap (yad2KeepItem neighborhood)) ++
        (if p.total_pages ≤ page then []
         else searchListingsLoop neighborhood (page + 1) rest)

/-- Embedding of `search_listings` (yad2_client.py lines 135-230),
restricted to the page loop (the query-parameter assembly has no effect
on the returned list's shape). Pages are numbered from 1. -/
def search_listings (neighborhood : String) (pages : List (Option Yad2Page))
    (max_pages : ℕ) : List Yad2Listing :=
  searchListingsLoop neighborhood 1 (pages.take max_pages)

/-! ### Report assembly (analyzer.py, `generate_report`) -/

/-- Deduplication key of the transaction merge. The source builds the
string `f"{address}_{deal_amount}_{deal_date}"`; since the rendered
amount and date never contain an underscore, that string is injective in
the triple (address, deal_amount, deal_date), which is used directly. -/
def dedupKey (tx : NadlanTransaction) : String × ℚ × Option ℤ :=
  (tx.address, tx.deal_amount, tx.deal_date)

/-- Merge loop of `generate_report` (analyzer.py lines 343-351), with the
`seen_keys` set threaded through. -/
def dedupLoop (seen : List (String × ℚ × Option ℤ)) :
    List NadlanTransaction → List NadlanTransaction
  | [] => []
  | tx :: rest =>
    if dedupKey tx ∈ seen then dedupLoop seen rest
    else tx :: dedupLoop (dedupKey tx :: seen) rest

/-- Combined transaction list: street, neighborhood then city lists,
first occurrence of each key kept. -/
def merge_transactions (street nbhd city : List NadlanTransaction) :
    List NadlanTransaction :=
  dedupLoop [] (street ++ nbhd ++ city)

/-- Embedding of `generate_report` (analyzer.py lines 323-397). `today`
is the day ordinal of `datetime.now().date()` and `current_year` the
calendar year of `datetime.now()`; `yearOf`/`monthOf` abstract the
day-ordinal calendar (see `analyze_price_trends`). -/
def generate_report (today current_year : ℤ) (yearOf monthOf : ℤ → ℤ)
    (address property_type : String)
    (transactions_street transactions_neighborhood transactions_city :
      List NadlanTransaction)
    (listings : List Yad2Listing) (subject_rooms : Option ℚ)
    (subject_floor : Option ℤ) (subject_size : Option ℚ)
    (subject_building_year : Option ℤ) : MarketAnalysisReport :=
  let address_parts := parse_address_parts address
  let all_transactions := merge_transactions transactions_street
    transactions_neighborhood transactions_city
  let comparables := build_comparables all_transactions listings
  { subject_address := address
    subject_property_type := property_type
    subject_city := address_parts.city
    subject_neighborhood := address_parts.neighborhood
    subject_street := address_parts.street
    transactions := all_transactions
    current_listings := listings
    comparables := comparables
    floor_analysis := analyze_floor_prices all_transactions
    building_age_analysis := analyze_building_age current_year all_transactions
    price_trends := analyze_price_trends yearOf monthOf all_transactions
    value_estimation := estimate_value today comparables subject_rooms
      subject_floor subject_size subject_building_year
    ai_summary := ""
    data_sources_used :=
      ["nadlan.gov.il"] ++ (if listings ≠ [] then ["yad2.co.il"] else [])
    errors := [] }

/-! ### AI summary (ai_summary.py, `generate_ai_summary`) -/

/-- Fixed placeholder returned when the text-generation credential is
absent. -/
def placeholderAISummary : String :=
  "סיכום AI לא זמין - יש להגדיר ANTHROPIC_API_KEY בקובץ .env"

/-- Embedding of `generate_ai_summary` (ai_summary.py lines 133-173):
no credential yields the fixed placeholder; otherwise the outcome of the
completion call is returned, a failure degrading to an error string.
(The missing-package branch is an environment condition outside this
model.) -/
def generate_ai_summary (api_key_present : Bool)
    (api_call : Except String String) (_report : MarketAnalysisReport) :
    String :=
  if api_key_present = false then placeholderAISummary
  else
    match api_call with
    | .ok s => s
    | .error e => "שגיאה ביצירת סיכום AI: " ++ e

/-! ### Orchestrator (orchestrator.py, `run_market_analysis`)

The four network fetches are modelled by injected outcomes: `.ok l` when
the client call returned the list `l`, `.error e` when it raised an
exception with message `e` (which the orchestrator catches, recording an
error string). The progress callback is modelled by the emitted trace of
`(message, fraction)` pairs, returned alongside the report. -/

/-- Outcomes of the four data-source calls of one run. -/
structure FetchOutcomes where
  street : Except String (List NadlanTransaction)
  neighborhood : Except String (List NadlanTransaction)
  city : Except String (List NadlanTransaction)
  listings : Except String (List Yad2Listing)

/-- Embedding of `run_market_analysis` (orchestrator.py lines 22-157),
returning the report and the full progress trace. -/
def run_market_analysis (today current_year : ℤ) (yearOf monthOf : ℤ → ℤ)
    (address property_type : String) (rooms : Option ℚ) (floor : Option ℤ)
    (size_sqm : Option ℚ) (building_year : Option ℤ)
    (include_ai : Bool) (api_key_present : Bool)
    (api_call : Except String String) (fo : FetchOutcomes) :
    MarketAnalysisReport × List (String × ℚ) :=
  let addr_parts := parse_address_parts address
  let city := addr_parts.city
  let neighborhood := addr_parts.neighborhood
  let transactions_street :=
    match fo.street with
    | .ok txs => txs
    | .error _ => []
  let streetTrace : List (String × ℚ) :=
    match fo.street with
    | .ok txs =>
      [("נמצאו " ++ toString txs.length ++ " עסקאות ברחוב", 0.15)]
    | .error _ => []
  let streetErrors : List String :=
    match fo.street with
    | .ok _ => []
    | .error e => ["שגיאה בשליפת עסקאות ברחוב: " ++ e]
  let nbhdGuard := city ≠ "" ∧ neighborhood ≠ ""
  let transactions_neighborhood :=
    if nbhdGuard then
      match fo.neighborhood with
      | .ok txs => txs
      | .error _ => []
    else []
  let nbhdTrace : List (String × ℚ) :=
    if nbhdGuard then
      ("שולף עסקאות בשכונה: " ++ neighborhood ++ "...", 0.20) ::
        (match fo.neighborhood with
         | .ok txs =>
           [("נמצאו " ++ toString txs.length ++ " עסקאות בשכונה", 0.30)]
         | .error _ => [])
    else []
  let nbhdErrors : List String :=
    if nbhdGuard then
      match fo.neighborhood with
      | .ok _ => []
      | .error e => ["שגיאה בשליפת עסקאות בשכונה: " ++ e]
    else []
  let transactions_city :=
    if city ≠ "" then
      match fo.city with
      | .ok txs => txs
      | .error _ => []
    else []
  let cityTrace : List (String × ℚ) :=
    if city ≠ "" then
      ("שולף עסקאות בעיר: " ++ city ++ "...", 0.35) ::
        (match fo.city with
         | .ok txs =>
           [("נמצאו " ++ toString txs.length ++ " עסקאות בעיר", 0.45)]
         | .error _ => [])
    else []
  let cityErrors : List String :=
    if city ≠ "" then
      match fo.city with
      | .ok _ => []
      | .error e => ["שגיאה בשליפת עסקאות בעיר: " ++ e]
    else []
  let listings :=
    if city ≠ "" then
      match fo.listings with
      | .ok l => l
      | .error _ => []
    else []
  let listingsTrace : List (String × ℚ) :=
    if city ≠ "" then
      match fo.listings with
      | .ok l =>
        [("נמצאו " ++ toString l.length ++ " נכסים מפורסמים", 0.60)]
      | .error _ => []
    else []
  let listingsErrors : List String :=
    if city ≠ "" then
      match fo.listings with
      | .ok _ => []
      | .error e => ["שגיאה בשליפת נכסים מיד2: " ++ e]
    else []
  let errors := streetErrors ++ nbhdErrors ++ cityErrors ++ listingsErrors
  let report0 := generate_report today current_year yearOf monthOf address
    property_type transactions_street transactions_neighborhood
    transactions_city listings rooms floor size_sqm building_year
  let report1 := { report0 with errors := errors }
  let report2 :=
    if include_ai then
      { report1 with
          ai_summary := generate_ai_summary api_key_present api_call report1 }
    else report1
  let trace : List (String × ℚ) :=
    [("מתחיל ניתוח שוק...", 0.0),
     ("שולף עסקאות מ-nadlan.gov.il (רחוב)...", 0.05)] ++
    streetTrace ++ nbhdTrace ++ cityTrace ++
    [("שולף נכסים מפורסמים מיד2...", 0.50)] ++ listingsTrace ++
    [("מנתח נתונים...", 0.65), ("ניתוח נתונים הושלם", 0.75)] ++
    (if include_ai then
       [("מייצר סיכום AI...", 0.80), ("סיכום AI הושלם", 0.95)]
     else []) ++
    [("הדו\"ח מוכן!", 1.0)]
  (report2, trace)

/-! ### Specification-side definitions

The following definitions transcribe the specification's wording (spec
section 4.4 step 3 and section 8) rather than the source, for comparison
with the embedded code. -/

/-- Recency factor per the spec: ×1.5 for deals at most 6 months old,
×1.2 at most 12, ×0.6 beyond 36, unmodified without a date. A month is
the code's unit of 30 days. -/
def specRecencyFactor (today : ℤ) (c : ComparableProperty) : ℚ :=
  match c.deal_date with
  | none => 1
  | some d =>
    let months_ago : ℚ := ((today - d : ℤ) : ℚ) / 30
    if months_ago ≤ 6 then 1.5
    else if months_ago ≤ 12 then 1.2
    else if 36 < months_ago then 0.6
    else 1

/-- Room-similarity factor per the spec: ×1.3 exact match, ×1.0 within
one room, ×0.7 otherwise; skipped when either side is unknown (absent or
zero, zero being Python-falsy). -/
def specRoomFactor (subject_rooms : Option ℚ) (c : ComparableProperty) : ℚ :=
  match subject_rooms, c.rooms with
  | some a, some b =>
    if a = 0 ∨ b = 0 then 1
    else if a = b then 1.3
    else if |a - b| ≤ 1 then 1
    else 0.7
  | _, _ => 1

/-- Floor-similarity factor per the spec: ×1.2 within one floor, ×0.8
more than five floors apart; skipped when either floor is unknown. -/
def specFloorFactor (subject_floor : Option ℤ) (c : ComparableProperty) : ℚ :=
  match subject_floor, c.floor with
  | some a, some b =>
    if |a - b| ≤ 1 then 1.2
    else if 5 < |a - b| then 0.8
    else 1
  | _, _ => 1

/-- Building-age factor per the spec: ×1.2 when the construction years
are within 5 years, ×0.8 when more than 20 apart; skipped when either
year is unknown (absent or zero). -/
def specAgeFactor (subject_building_year : Option ℤ)
    (c : ComparableProperty) : ℚ :=
  match subject_building_year, c.building_year with
  | some a, some b =>
    if a = 0 ∨ b = 0 then 1
    else if |a - b| ≤ 5 then 1.2
    else if 20 < |a - b| then 0.8
    else 1
  | _, _ => 1

/-- Weighted mean price-per-sqm per the spec:
`Σ(price-per-sqm × weight) / Σ(weight)` over a candidate pool. -/
def specWeightedMean (today : ℤ) (subject_rooms : Option ℚ)
    (subject_floor : Option ℤ) (subject_building_year : Option ℤ)
    (pool : List ComparableProperty) : ℚ :=
  (pool.map fun c =>
    c.price_per_sqm.getD 0 *
      compWeight today subject_rooms subject_floor subject_building_year c).sum /
  (pool.map
    (compWeight today subject_rooms subject_floor subject_building_year)).sum

/-- Subject size per the spec: the provided size when given (truthy),
else the mean over pool candidates with a known positive size, else a
fixed default of 80 sqm. -/
def specSubjectSize (subject_size : Option ℚ)
    (pool : List ComparableProperty) : ℚ :=
  if qTruthy subject_size then subject_size.getD 0
  else
    let sizes := pool.filterMap fun c =>
      match c.size_sqm with
      | some s => if s != 0 && decide (0 < s) then some s else none
      | none => none
    if sizes != [] then listMean sizes else 80

/-! ### Concrete sample inputs for witnesses and counterexamples -/

/-- Sample comparable: recent closed deal, exact room match, no floor or
construction-year data. -/
def wComp : ComparableProperty :=
  { source := "nadlan.gov.il", address := "הרצל 15", price := 1000000,
    rooms := some 3, deal_date := some 0 }

/-- Sample closed comparable with a defined price-per-sqm and no other
attributes. -/
def sComp : ComparableProperty :=
  { source := "nadlan.gov.il", address := "הרצל 15", price := 1000000,
    size_sqm := some 100 }

/-- Sample listed comparable with a defined price-per-sqm. -/
def sCompListed : ComparableProperty :=
  { source := "yad2", address := "הרצל 16", price := 2000000,
    size_sqm := some 100, is_listed := true }

/-- Fetch outcomes of a simulated total outage in which every source
client returns an empty list without raising. -/
def outageOutcomes : FetchOutcomes :=
  { street := .ok [], neighborhood := .ok [], city := .ok [],
    listings := .ok [] }

/-- Transaction with a valid construction year (three years before 2025)
but a zero deal amount. -/
def zeroAmountTx : NadlanTransaction :=
  { address := "הרצל 15", deal_amount := 0, building_year := some 2022 }

/-- Transaction with a positive amount, used in the fetch-loop witness. -/
def posTx : NadlanTransaction :=
  { address := "הרצל 15", deal_amount := 5 }

/-- Transaction with a non-positive amount, discarded by the fetch
loop. -/
def nonPosTx : NadlanTransaction :=
  { address := "הרצל 17", deal_amount := 0 }

/-- Sample listing with a positive price. -/
def posListing : Yad2Listing :=
  { address := "הרצל 16", price := 3 }

/-- Sample transactions sharing one deduplication key across scopes. -/
def dupTxStreet : NadlanTransaction :=
  { address := "הרצל 15", deal_amount := 7, rooms := some 3 }

/-- Neighborhood-scope duplicate of `dupTxStreet` (same key, different
payload). -/
def dupTxNbhd : NadlanTransaction :=
  { address := "הרצל 15", deal_amount := 7, rooms := some 4 }

/-- Transaction aged exactly 5 years at current year 2025. -/
def boundary5Tx : NadlanTransaction :=
  { address := "הרצל 15", deal_amount := 5, building_year := some 2020 }

/-- Transaction aged exactly 6 years at current year 2025. -/
def boundary6Tx : NadlanTransaction :=
  { address := "הרצל 15", deal_amount := 5, building_year := some 2019 }

/-- Comma-separated, stripped segments of a cleaned address (leading
"רחוב" marker removed), as computed by `parse_address_parts`. -/
def addressSegments (address : String) : List (List Char) :=
  (splitOnChar ',' (stripStreetWord (trimL address.data))).map trimL

/-! ### Theorems -/

/-- Helper: the recency block multiplies the running weight by the
spec's recency factor. -/
lemma recencyStep_eq (today : ℤ) (c : ComparableProperty) (w : ℚ) :
    recencyStep today c.deal_date w = w * specRecencyFactor today c := by
  rcases h : c.deal_date with _ | d <;>
    simp only [recencyStep, specRecencyFactor, h] <;>
    first
      | ring1
      | (split_ifs <;> ring1)

/-- Helper: the room block multiplies the running weight by the spec's
room factor. -/
lemma roomStep_eq (sr : Option ℚ) (c : ComparableProperty) (w : ℚ) :
    roomStep sr c.rooms w = w * specRoomFactor sr c := by
  rcases sr with _ | a <;> rcases h : c.rooms with _ | b <;>
    simp only [roomStep, specRoomFactor, h, qTruthy, Option.getD_some,
      Bool.and_eq_true, bne_iff_ne, ne_eq, Bool.false_and, Bool.and_false,
      if_false, Bool.false_eq_true, abs_eq_zero, sub_eq_zero] <;>
    first
      | ring1
      | (split_ifs <;> first | ring1 | tauto)

/-- Helper: the floor block multiplies the running weight by the spec's
floor factor. -/
lemma floorStep_eq (sf : Option ℤ) (c : ComparableProperty) (w : ℚ) :
    floorStep sf c.floor w = w * specFloorFactor sf c := by
  rcases sf with _ | a <;> rcases h : c.floor with _ | b <;>
    simp only [floorStep, specFloorFactor, h] <;>
    first
      | ring1
      | (split_ifs <;> first | ring1 | tauto)

/-- Helper: the building-age block multiplies the running weight by the
spec's age factor. -/
lemma ageStep_eq (sy : Option ℤ) (c : ComparableProperty) (w : ℚ) :
    ageStep sy c.building_year w = w * specAgeFactor sy c := by
  rcases sy with _ | a <;> rcases h : c.building_year with _ | b <;>
    simp only [ageStep, specAgeFactor, h, iTruthy, Option.getD_some,
      Bool.and_eq_true, bne_iff_ne, ne_eq, Bool.false_and, Bool.and_false,
      if_false, Bool.false_eq_true] <;>
    first
      | ring1
      | (split_ifs <;> first | ring1 | tauto)

/-- C1: every candidate's weight is the product 1.0 × recency factor ×
room factor × floor factor × building-age factor exactly as the spec
describes the four adjustments, and in particular a candidate at most 6
months old with an exact (non-zero) room match and inapplicable floor
and building-age adjustments weighs exactly 1.5 × 1.3 = 1.95. -/
theorem compWeight_factors :
    (∀ (today : ℤ) (sr : Option ℚ) (sf : Option ℤ) (sy : Option ℤ)
      (c : ComparableProperty),
      compWeight today sr sf sy c =
        specRecencyFactor today c * specRoomFactor sr c *
          specFloorFactor sf c * specAgeFactor sy c) ∧
    (∀ (today d : ℤ) (r : ℚ) (sf : Option ℤ) (sy : Option ℤ)
      (c : ComparableProperty),
      c.deal_date = some d → ((today - d : ℤ) : ℚ) / 30 ≤ 6 →
      c.rooms = some r → r ≠ 0 →
      (sf = none ∨ c.floor = none) →
      (iTruthy sy = false ∨ iTruthy c.building_year = false) →
      compWeight today (some r) sf sy c = 1.95) := by
  have base : ∀ (today : ℤ) (sr : Option ℚ) (sf : Option ℤ)
      (sy : Option ℤ) (c : ComparableProperty),
      compWeight today sr sf sy c =
        specRecencyFactor today c * specRoomFactor sr c *
          specFloorFactor sf c * specAgeFactor sy c := by
    intro today sr sf sy c
    rw [compWeight, recencyStep_eq, roomStep_eq, floorStep_eq, ageStep_eq]
    ring
  refine ⟨base, ?_⟩
  intro today d r sf sy c hdd hrec hr hr0 hfl hage
  rw [base]
  have h1 : specRecencyFactor today c = 1.5 := by
    simp only [specRecencyFactor, hdd]
    rw [if_pos hrec]
  have h2 : specRoomFactor (some r) c = 1.3 := by
    simp [specRoomFactor, hr, hr0]
  have h3 : specFloorFactor sf c = 1 := by
    rcases hfl with h | h <;> simp [specFloorFactor, h] <;>
      rcases sf with _ | a <;> simp
  have h4 : specAgeFactor sy c = 1 := by
    rcases hage with h | h
    · rcases sy with _ | a
      · simp [specAgeFactor]
      · simp only [iTruthy, bne_iff_ne, ne_eq] at h
        have ha : a = 0 := by
          by_contra hc
          simp [hc] at h
        subst ha
        rcases hb : c.building_year with _ | b <;>
          simp [specAgeFactor, hb]
    · rcases hb : c.building_year with _ | b
      · rcases sy with _ | a <;> simp [specAgeFactor, hb]
      · simp only [hb, iTruthy, bne_iff_ne, ne_eq] at h
        have hbz : b = 0 := by
          by_contra hc
          simp [hc] at h
        subst hbz
        rcases sy with _ | a <;> simp [specAgeFactor, hb]
  rw [h1, h2, h3, h4]
  norm_num

/-- Witness for C1: a concrete recent, exact-room-match comparable has
weight exactly 1.95. -/
theorem compWeight_factors_witness :
    compWeight 0 (some 3) none none wComp = 1.95 :=
  compWeight_factors.2 0 0 3 none none wComp rfl (by norm_num) rfl
    (by norm_num) (Or.inl rfl) (Or.inl rfl)

/-- Helper: every transaction kept by the fetch page loop has a positive
deal amount. -/
lemma getTransactionsLoop_pos (pages : List (Option NadlanPage))
    (tx : NadlanTransaction) (h : tx ∈ getTransactionsLoop pages) :
    0 < tx.deal_amount := by
  induction pages with
  | nil => simp [getTransactionsLoop] at h
  | cons p rest ih =>
    rcases p with _ | ⟨results, isLast⟩
    · simp [getTransactionsLoop] at h
    · simp only [getTransactionsLoop] at h
      split_ifs at h with h1 h2
      · simp at h
      · rcases List.mem_append.1 h with hl | hr
        · simpa using (List.mem_filter.1 hl).2
        · simp at hr
      · rcases List.mem_append.1 h with hl | hr
        · simpa using (List.mem_filter.1 hl).2
        · exact ih hr

/-- Helper: a feed item kept by the listing filter has a positive
price. -/
lemma yad2KeepItem_pos (nbhd : String) (it : String × Option Yad2Listing)
    (l : Yad2Listing) (h : yad2KeepItem nbhd it = some l) : 0 < l.price := by
  obtain ⟨tag, ol⟩ := it
  rcases ol with _ | listing
  · simp only [yad2KeepItem] at h
    split_ifs at h <;> simp at h
  · simp only [yad2KeepItem] at h
    split_ifs at h with h1 h2 h3 <;> simp at h
    exact h ▸ h2

/-- Helper: every listing returned by the listing page loop has a
positive price. -/
lemma searchListingsLoop_pos (nbhd : String) (page : ℕ)
    (pages : List (Option Yad2Page)) (l : Yad2Listing)
    (h : l ∈ searchListingsLoop nbhd page pages) : 0 < l.price := by
  induction pages generalizing page with
  | nil => simp [searchListingsLoop] at h
  | cons p rest ih =>
    rcases p with _ | pg
    · simp [searchListingsLoop] at h
    · simp only [searchListingsLoop] at h
      split_ifs at h with h1 h2
      · simp at h
      · rcases List.mem_append.1 h with hl | hr
        · obtain ⟨it, _, hit⟩ := List.mem_filterMap.1 hl
          exact yad2KeepItem_pos nbhd it l hit
        · simp at hr
      · rcases List.mem_append.1 h with hl | hr
        · obtain ⟨it, _, hit⟩ := List.mem_filterMap.1 hl
          exact yad2KeepItem_pos nbhd it l hit
        · exact ih (page + 1) hr

/-- C9: every transaction the fetch loop returns has a positive deal
amount (non-positive records are discarded before being appended), and
consequently every comparable built from fetched transactions and
fetched listings has a positive price. -/
theorem fetched_positive_price :
    (∀ (pages : List (Option NadlanPage)) (max_pages : ℕ)
        (tx : NadlanTransaction),
      tx ∈ get_transactions pages max_pages → 0 < tx.deal_amount) ∧
    (∀ (pages : List (Option NadlanPage)) (max_pages : ℕ) (nbhd : String)
        (ypages : List (Option Yad2Page)) (ymax : ℕ)
        (c : ComparableProperty),
      c ∈ build_comparables (get_transactions pages max_pages)
          (search_listings nbhd ypages ymax) →
      0 < c.price) := by
  have base : ∀ (pages : List (Option NadlanPage)) (max_pages : ℕ)
      (tx : NadlanTransaction),
      tx ∈ get_transactions pages max_pages → 0 < tx.deal_amount := by
    intro pages max_pages tx h
    exact getTransactionsLoop_pos _ tx h
  refine ⟨base, ?_⟩
  intro pages max_pages nbhd ypages ymax c hc
  rcases List.mem_append.1 hc with hl | hr
  · obtain ⟨tx, htx, rfl⟩ := List.mem_map.1 hl
    exact base pages max_pages tx htx
  · obtain ⟨l, hml, rfl⟩ := List.mem_map.1 hr
    exact searchListingsLoop_pos nbhd 1 _ l hml

/-- Witness for C9: a concrete two-record page keeps only the
positive-amount record, whose amount is positive. -/
theorem fetched_positive_price_witness : 0 < posTx.deal_amount :=
  fetched_positive_price.1 [some ([posTx, nonPosTx], true)] 5 posTx
    (by norm_num [get_transactions, getTransactionsLoop, List.filter,
      posTx, nonPosTx, List.cons_ne_nil])

/-- Helper: the merge loop returns a sublist of its input. -/
lemma dedupLoop_sublist (seen : List (String × ℚ × Option ℤ))
    (l : List NadlanTransaction) : (dedupLoop seen l).Sublist l := by
  induction l generalizing seen with
  | nil => simp [dedupLoop]
  | cons tx rest ih =>
    simp only [dedupLoop]
    split_ifs with h
    · exact (ih seen).trans (List.sublist_cons_self tx rest)
    · exact (ih (dedupKey tx :: seen)).cons₂ tx

/-- Helper: per-key characterization of the merge loop — for any key not
yet seen, the output contains exactly the first input element carrying
that key. -/
lemma dedupLoop_filter (seen : List (String × ℚ × Option ℤ))
    (l : List NadlanTransaction) (k : String × ℚ × Option ℤ) :
    (dedupLoop seen l).filter (fun tx => decide (dedupKey tx = k)) =
      if k ∈ seen then []
      else (l.filter (fun tx => decide (dedupKey tx = k))).take 1 := by
  induction l generalizing seen with
  | nil => simp [dedupLoop]
  | cons tx rest ih =>
    by_cases hseen : dedupKey tx ∈ seen
    · have hstep : dedupLoop seen (tx :: rest) = dedupLoop seen rest := by
        simp [dedupLoop, hseen]
      rw [hstep, ih seen]
      by_cases hk : k ∈ seen
      · simp [hk]
      · have hne : ¬ dedupKey tx = k := fun he => hk (he ▸ hseen)
        simp [hk, List.filter_cons, hne]
    · have hstep : dedupLoop seen (tx :: rest) =
          tx :: dedupLoop (dedupKey tx :: seen) rest := by
        simp [dedupLoop, hseen]
      rw [hstep]
      by_cases hk : dedupKey tx = k
      · subst hk
        have h1 : (dedupLoop (dedupKey tx :: seen) rest).filter
            (fun t => decide (dedupKey t = dedupKey tx)) = [] := by
          rw [ih (dedupKey tx :: seen)]
          simp
        rw [if_neg hseen, List.filter_cons, List.filter_cons, h1]
        simp
      · have hmemiff : (k ∈ dedupKey tx :: seen) ↔ k ∈ seen := by
          constructor
          · intro hm
            rcases List.mem_cons.1 hm with he | hm2
            · exact absurd he.symm hk
            · exact hm2
          · exact List.mem_cons_of_mem _
        rw [List.filter_cons]
        simp only [hk, decide_eq_true_eq, if_neg hk]
        rw [ih (dedupKey tx :: seen), if_congr hmemiff rfl rfl]
        by_cases h3 : k ∈ seen
        · simp [h3]
        · simp [h3, List.filter_cons, hk]

/-- Helper: keys of the merge-loop output are pairwise distinct and
disjoint from the seen set. -/
lemma dedupLoop_nodup (seen : List (String × ℚ × Option ℤ))
    (l : List NadlanTransaction) :
    ((dedupLoop seen l).map dedupKey).Nodup ∧
      ∀ tx ∈ dedupLoop seen l, dedupKey tx ∉ seen := by
  induction l generalizing seen with
  | nil => simp [dedupLoop]
  | cons tx rest ih =>
    simp only [dedupLoop]
    split_ifs with hseen
    · exact ih seen
    · obtain ⟨ihn, ihs⟩ := ih (dedupKey tx :: seen)
      refine ⟨?_, ?_⟩
      · simp only [List.map_cons, List.nodup_cons]
        refine ⟨?_, ihn⟩
        intro hmem
        obtain ⟨tx2, htx2, hk2⟩ := List.mem_map.1 hmem
        exact ihs tx2 htx2 (hk2 ▸ List.mem_cons_self _ _)
      · intro tx2 htx2
        rcases List.mem_cons.1 htx2 with rfl | hm
        · exact hseen
        · exact fun hs => ihs tx2 hm (List.mem_cons_of_mem _ hs)

/-- Helper: a key present in a prefix of the merged input is represented
in the output by an element of that prefix. -/
lemma dedupLoop_pref (pre post : List NadlanTransaction)
    (tx1 tx2 : NadlanTransaction) (h1 : tx1 ∈ pre)
    (h2 : tx2 ∈ dedupLoop [] (pre ++ post))
    (hk : dedupKey tx2 = dedupKey tx1) : tx2 ∈ pre := by
  have hchar := dedupLoop_filter [] (pre ++ post) (dedupKey tx1)
  simp only [List.not_mem_nil, if_false] at hchar
  have hmem2 : tx2 ∈ (dedupLoop [] (pre ++ post)).filter
      (fun tx => decide (dedupKey tx = dedupKey tx1)) :=
    List.mem_filter.2 ⟨h2, by simp [hk]⟩
  rw [hchar] at hmem2
  have hpre : tx1 ∈ pre.filter (fun tx => decide (dedupKey tx = dedupKey tx1)) :=
    List.mem_filter.2 ⟨h1, by simp⟩
  obtain ⟨a, t, hat⟩ : ∃ a t,
      pre.filter (fun tx => decide (dedupKey tx = dedupKey tx1)) = a :: t := by
    cases he : pre.filter (fun tx => decide (dedupKey tx = dedupKey tx1)) with
    | nil => rw [he] at hpre; simp at hpre
    | cons a t => exact ⟨a, t, rfl⟩
  have hsplit : (pre ++ post).filter (fun tx => decide (dedupKey tx = dedupKey tx1)) =
      a :: (t ++ post.filter (fun tx => decide (dedupKey tx = dedupKey tx1))) := by
    rw [List.filter_append, hat]
    rfl
  rw [hsplit] at hmem2
  simp only [List.take_succ_cons, List.take_zero, List.mem_singleton] at hmem2
  have ha : a ∈ pre.filter (fun tx => decide (dedupKey tx = dedupKey tx1)) := by
    rw [hat]; exact List.mem_cons_self _ _
  exact hmem2 ▸ (List.mem_filter.1 ha).1

/-- C10: the report's combined transaction list is the street,
neighborhood and city lists concatenated with first-occurrence
deduplication on the key (address, deal amount, deal date): order is
preserved (sublist), keys are pairwise distinct, for every key exactly
the first occurrence in the concatenation is kept, every input key is
represented, and an occurrence whose key already appears at street
(resp. street-or-neighborhood) level is itself a street
(resp. street-or-neighborhood) element. -/
theorem merge_transactions_dedup :
    ∀ street nbhd city : List NadlanTransaction,
      (merge_transactions street nbhd city).Sublist (street ++ nbhd ++ city) ∧
      ((merge_transactions street nbhd city).map dedupKey).Nodup ∧
      (∀ k, (merge_transactions street nbhd city).filter
          (fun tx => decide (dedupKey tx = k)) =
        ((street ++ nbhd ++ city).filter
          (fun tx => decide (dedupKey tx = k))).take 1) ∧
      (∀ tx ∈ street ++ nbhd ++ city,
        ∃ tx2 ∈ merge_transactions street nbhd city,
          dedupKey tx2 = dedupKey tx) ∧
      (∀ tx1 ∈ street, ∀ tx2 ∈ merge_transactions street nbhd city,
        dedupKey tx2 = dedupKey tx1 → tx2 ∈ street) ∧
      (∀ tx1 ∈ street ++ nbhd, ∀ tx2 ∈ merge_transactions street nbhd city,
        dedupKey tx2 = dedupKey tx1 → tx2 ∈ street ++ nbhd) := by
  intro street nbhd city
  refine ⟨dedupLoop_sublist [] _, (dedupLoop_nodup [] _).1, ?_, ?_, ?_, ?_⟩
  · intro k
    have := dedupLoop_filter [] (street ++ nbhd ++ city) k
    simpa [merge_transactions] using this
  · intro tx htx
    have hchar := dedupLoop_filter [] (street ++ nbhd ++ city) (dedupKey tx)
    simp only [List.not_mem_nil, if_false] at hchar
    have hne : (street ++ nbhd ++ city).filter
        (fun t => decide (dedupKey t = dedupKey tx)) ≠ [] := by
      intro he
      have : tx ∈ (street ++ nbhd ++ city).filter
          (fun t => decide (dedupKey t = dedupKey tx)) :=
        List.mem_filter.2 ⟨htx, by simp⟩
      rw [he] at this
      simp at this
    obtain ⟨a, t, hat⟩ : ∃ a t, (street ++ nbhd ++ city).filter
        (fun t2 => decide (dedupKey t2 = dedupKey tx)) = a :: t := by
      cases he : (street ++ nbhd ++ city).filter
          (fun t2 => decide (dedupKey t2 = dedupKey tx)) with
      | nil => exact absurd he hne
      | cons a t => exact ⟨a, t, rfl⟩
    have ha : a ∈ merge_transactions street nbhd city := by
      have : a ∈ (merge_transactions street nbhd city).filter
          (fun t2 => decide (dedupKey t2 = dedupKey tx)) := by
        rw [merge_transactions, hchar, hat]
        simp
      exact (List.mem_filter.1 this).1
    refine ⟨a, ha, ?_⟩
    have : a ∈ (street ++ nbhd ++ city).filter
        (fun t2 => decide (dedupKey t2 = dedupKey tx)) := by
      rw [hat]; exact List.mem_cons_self _ _
    simpa using (List.mem_filter.1 this).2
  · intro tx1 h1 tx2 h2 hk
    exact dedupLoop_pref street (nbhd ++ city) tx1 tx2 h1
      (by simpa [merge_transactions, List.append_assoc] using h2) hk
  · intro tx1 h1 tx2 h2 hk
    exact dedupLoop_pref (street ++ nbhd) city tx1 tx2 h1
      (by simpa [merge_transactions, List.append_assoc] using h2) hk

/-- Witness for C10: with a street/neighborhood duplicate pair the
street occurrence is the one kept. -/
theorem merge_transactions_dedup_witness :
    dupTxStreet ∈ ([dupTxStreet] : List NadlanTransaction) := by
  have h := (merge_transactions_dedup [dupTxStreet] [dupTxNbhd] []).2.2.2.2.1
  exact h dupTxStreet (by simp) dupTxStreet
    (by simp [merge_transactions, dedupLoop]) rfl

/-- Helper: on a non-empty candidate pool the estimator returns exactly
the record built from the weighted mean, the subject size, the ±8% band
and the pool-size confidence tier. -/
lemma estimate_value_eq (today : ℤ) (comps : List ComparableProperty)
    (sr : Option ℚ) (sf : Option ℤ) (ss : Option ℚ) (sy : Option ℤ)
    (h : validPool comps ≠ []) :
    estimate_value today comps sr sf ss sy = some
      { estimated_price_low :=
          pyRound (specWeightedMean today sr sf sy (validPool comps) *
            specSubjectSize ss (validPool comps) * 0.92)
        estimated_price_mid :=
          pyRound (specWeightedMean today sr sf sy (validPool comps) *
            specSubjectSize ss (validPool comps))
        estimated_price_high :=
          pyRound (specWeightedMean today sr sf sy (validPool comps) *
            specSubjectSize ss (validPool comps) * 1.08)
        estimated_price_per_sqm :=
          pyRound (specWeightedMean today sr sf sy (validPool comps))
        confidence :=
          if 10 ≤ (validPool comps).length then "גבוה"
          else if 5 ≤ (validPool comps).length then "בינוני"
          else "נמוך"
        comparable_count := (validPool comps).length
        methodology :=
          "ממוצע משוקלל של עסקאות דומות עם התאמות לגודל, קומה, גיל בניין ועדכניות" } := by
  have hw : (validPool comps).map (compWeight today sr sf sy) ≠ [] := by
    simpa using h
  simp only [estimate_value]
  rw [if_neg h, if_neg hw]
  simp only [specWeightedMean, specSubjectSize]

/-- C2: for every non-empty candidate pool the estimator returns an
estimation whose price-per-sqm is the weighted mean
Σ(price-per-sqm × weight) / Σ(weight) over the pool, whose mid estimate
is that mean times the subject size (provided size when given, else the
candidates' mean known positive size, else 80), with low = mid × 0.92
and high = mid × 1.08, each banker's-rounded. -/
theorem estimate_value_formulas :
    ∀ (today : ℤ) (comps : List ComparableProperty) (sr : Option ℚ)
      (sf : Option ℤ) (ss : Option ℚ) (sy : Option ℤ),
      validPool comps ≠ [] →
      ∃ ve, estimate_value today comps sr sf ss sy = some ve ∧
        ve.estimated_price_per_sqm =
          pyRound (specWeightedMean today sr sf sy (validPool comps)) ∧
        ve.estimated_price_mid =
          pyRound (specWeightedMean today sr sf sy (validPool comps) *
            specSubjectSize ss (validPool comps)) ∧
        ve.estimated_price_low =
          pyRound (specWeightedMean today sr sf sy (validPool comps) *
            specSubjectSize ss (validPool comps) * 0.92) ∧
        ve.estimated_price_high =
          pyRound (specWeightedMean today sr sf sy (validPool comps) *
            specSubjectSize ss (validPool comps) * 1.08) := by
  intro today comps sr sf ss sy h
  exact ⟨_, estimate_value_eq today comps sr sf ss sy h, rfl, rfl, rfl, rfl⟩

/-- Helper: the price-per-sqm of the sample closed comparable. -/
lemma sComp_pps : sComp.price_per_sqm = some 10000 := by
  norm_num [sComp, ComparableProperty.price_per_sqm, pyRound]

/-- Helper: the sample closed comparable passes the closed-transaction
filter. -/
lemma sComp_closed_pred :
    (!sComp.is_listed && qTruthy sComp.price_per_sqm &&
      decide (0 < sComp.price)) = true := by
  rw [sComp_pps]
  norm_num [sComp, qTruthy]

/-- Helper: the sample closed comparable passes the fallback filter. -/
lemma sComp_all_pred :
    (qTruthy sComp.price_per_sqm && decide (0 < sComp.price)) = true := by
  rw [sComp_pps]
  norm_num [sComp, qTruthy]

/-- Helper: replicated sample pools pass the closed filter unchanged. -/
lemma closedValid_replicate (n : ℕ) :
    closedValid (List.replicate n sComp) = List.replicate n sComp := by
  apply List.filter_eq_self.2
  intro a ha
  rw [List.eq_of_mem_replicate ha]
  exact sComp_closed_pred

/-- Helper: replicated sample pools pass the fallback filter unchanged. -/
lemma allValid_replicate (n : ℕ) :
    allValid (List.replicate n sComp) = List.replicate n sComp := by
  apply List.filter_eq_self.2
  intro a ha
  rw [List.eq_of_mem_replicate ha]
  exact sComp_all_pred

/-- Helper: the candidate pool of a replicated sample list is the list
itself. -/
lemma validPool_replicate (n : ℕ) :
    validPool (List.replicate n sComp) = List.replicate n sComp := by
  simp only [validPool, closedValid_replicate, allValid_replicate]
  split_ifs <;> rfl

/-- Witness for C2: one concrete closed comparable (price 1,000,000 for
100 sqm) yields a mid estimate of exactly 1,000,000 with band
920,000-1,080,000. -/
theorem estimate_value_formulas_witness :
    ∃ ve, estimate_value 0 [sComp] none none none none = some ve ∧
      ve.estimated_price_mid = 1000000 ∧ ve.estimated_price_low = 920000 ∧
      ve.estimated_price_high = 1080000 := by
  have hpool : validPool [sComp] = [sComp] := validPool_replicate 1
  obtain ⟨ve, hve, hpps, hmid, hlow, hhigh⟩ :=
    estimate_value_formulas 0 [sComp] none none none none
      (by rw [hpool]; simp)
  have hmean : specWeightedMean 0 none none none (validPool [sComp]) = 10000 := by
    rw [hpool]
    simp only [specWeightedMean, List.map_cons, List.map_nil, List.sum_cons,
      List.sum_nil, compWeight, recencyStep, roomStep, floorStep, ageStep,
      qTruthy, iTruthy, sComp_pps]
    norm_num [sComp]
  have hsize : specSubjectSize none (validPool [sComp]) = 100 := by
    rw [hpool]
    norm_num [specSubjectSize, qTruthy, listMean, sComp, List.filterMap]
  refine ⟨ve, hve, ?_, ?_, ?_⟩
  · rw [hmid, hmean, hsize]
    norm_num [pyRound]
  · rw [hlow, hmean, hsize]
    norm_num [pyRound]
  · rw [hhigh, hmean, hsize]
    norm_num [pyRound]

/-- C3: the returned confidence tier depends only on the candidate pool
size — fewer than 5 candidates give the low tier, 5 to 9 the medium
tier, 10 or more the high tier. -/
theorem estimate_value_confidence :
    ∀ (today : ℤ) (comps : List ComparableProperty) (sr : Option ℚ)
      (sf : Option ℤ) (ss : Option ℚ) (sy : Option ℤ)
      (ve : ValueEstimation),
      estimate_value today comps sr sf ss sy = some ve →
      ((validPool comps).length < 5 → ve.confidence = "נמוך") ∧
      (5 ≤ (validPool comps).length ∧ (validPool comps).length ≤ 9 →
        ve.confidence = "בינוני") ∧
      (10 ≤ (validPool comps).length → ve.confidence = "גבוה") := by
  intro today comps sr sf ss sy ve hve
  by_cases h : validPool comps = []
  · have hnone : estimate_value today comps sr sf ss sy = none := by
      simp only [estimate_value]
      rw [if_pos h]
    rw [hnone] at hve
    cases hve
  · rw [estimate_value_eq today comps sr sf ss sy h] at hve
    have hve2 := Option.some_injective _ hve
    subst hve2
    refine ⟨?_, ?_, ?_⟩ <;> intro hlen <;>
      simp only [] <;> split_ifs with h1 h2 <;> first | rfl | omega

/-- Witness for C3: concrete pools of exactly 4, 5 and 10 candidates
yield the low, medium and high tiers respectively. -/
theorem estimate_value_confidence_witness :
    (∃ ve, estimate_value 0 (List.replicate 4 sComp) none none none none =
      some ve ∧ ve.confidence = "נמוך") ∧
    (∃ ve, estimate_value 0 (List.replicate 5 sComp) none none none none =
      some ve ∧ ve.confidence = "בינוני") ∧
    (∃ ve, estimate_value 0 (List.replicate 10 sComp) none none none none =
      some ve ∧ ve.confidence = "גבוה") := by
  refine ⟨?_, ?_, ?_⟩
  · have hne : validPool (List.replicate 4 sComp) ≠ [] := by
      rw [validPool_replicate]; simp
    obtain ⟨ve, hve, -⟩ :=
      estimate_value_formulas 0 (List.replicate 4 sComp) none none none none hne
    refine ⟨ve, hve, ?_⟩
    exact (estimate_value_confidence 0 _ none none none none ve hve).1
      (by rw [validPool_replicate]; norm_num)
  · have hne : validPool (List.replicate 5 sComp) ≠ [] := by
      rw [validPool_replicate]; simp
    obtain ⟨ve, hve, -⟩ :=
      estimate_value_formulas 0 (List.replicate 5 sComp) none none none none hne
    refine ⟨ve, hve, ?_⟩
    exact (estimate_value_confidence 0 _ none none none none ve hve).2.1
      (by rw [validPool_replicate]; norm_num)
  · have hne : validPool (List.replicate 10 sComp) ≠ [] := by
      rw [validPool_replicate]; simp
    obtain ⟨ve, hve, -⟩ :=
      estimate_value_formulas 0 (List.replicate 10 sComp) none none none none hne
    refine ⟨ve, hve, ?_⟩
    exact (estimate_value_confidence 0 _ none none none none ve hve).2.2
      (by rw [validPool_replicate]; norm_num)

/-- C4: the candidate pool is the closed-transaction filter result when
at least 3 closed candidates exist, and the listings-included filter
result otherwise; the estimator returns `none` exactly when the pool is
empty. -/
theorem estimate_value_pool :
    ∀ (comps : List ComparableProperty) (today : ℤ) (sr : Option ℚ)
      (sf : Option ℤ) (ss : Option ℚ) (sy : Option ℤ),
      (3 ≤ (closedValid comps).length → validPool comps = closedValid comps) ∧
      ((closedValid comps).length < 3 → validPool comps = allValid comps) ∧
      (estimate_value today comps sr sf ss sy = none ↔
        validPool comps = []) := by
  intro comps today sr sf ss sy
  refine ⟨?_, ?_, ?_⟩
  · intro h
    simp only [validPool]
    rw [if_neg (by omega)]
  · intro h
    simp only [validPool]
    rw [if_pos h]
  · constructor
    · intro h
      by_contra hne
      rw [estimate_value_eq today comps sr sf ss sy hne] at h
      cases h
    · intro h
      simp only [estimate_value]
      rw [if_pos h]

/-- Witness for C4: with one closed and one listed usable comparable
(fewer than 3 closed), the pool falls back to the listings-included
filter. -/
theorem estimate_value_pool_witness :
    validPool [sComp, sCompListed] = allValid [sComp, sCompListed] := by
  refine (estimate_value_pool [sComp, sCompListed] 0 none none none none).2.1 ?_
  have : closedValid [sComp, sCompListed] = [sComp] := by
    simp only [closedValid, List.filter_cons, List.filter_nil]
    rw [sComp_closed_pred]
    norm_num [sCompListed]
  rw [this]
  norm_num

/-- Helper: explicit piecewise value of the bracket lookup. -/
lemma ageFind_eq (a : ℤ) :
    (ageCategories.find? fun c =>
      decide (c.2.1 ≤ a) && decide (a ≤ c.2.2)) =
      if 0 ≤ a ∧ a ≤ 5 then some ("חדש (0-5 שנים)", (0 : ℤ), (5 : ℤ))
      else if 6 ≤ a ∧ a ≤ 15 then
        some ("חדש יחסית (6-15 שנים)", (6 : ℤ), (15 : ℤ))
      else if 16 ≤ a ∧ a ≤ 30 then
        some ("ותיק (16-30 שנים)", (16 : ℤ), (30 : ℤ))
      else if 31 ≤ a ∧ a ≤ 200 then
        some ("ישן (30+ שנים)", (31 : ℤ), (200 : ℤ))
      else none := by
  simp only [ageCategories]
  by_cases h1 : (0 : ℤ) ≤ a ∧ a ≤ 5
  · rw [List.find?_cons_of_pos _ (by simp [h1.1, h1.2]), if_pos h1]
  · rw [List.find?_cons_of_neg _ (by simp; omega), if_neg h1]
    by_cases h2 : (6 : ℤ) ≤ a ∧ a ≤ 15
    · rw [List.find?_cons_of_pos _ (by simp [h2.1, h2.2]), if_pos h2]
    · rw [List.find?_cons_of_neg _ (by simp; omega), if_neg h2]
      by_cases h3 : (16 : ℤ) ≤ a ∧ a ≤ 30
      · rw [List.find?_cons_of_pos _ (by simp [h3.1, h3.2]), if_pos h3]
      · rw [List.find?_cons_of_neg _ (by simp; omega), if_neg h3]
        by_cases h4 : (31 : ℤ) ≤ a ∧ a ≤ 200
        · rw [List.find?_cons_of_pos _ (by simp [h4.1, h4.2]), if_pos h4]
        · rw [List.find?_cons_of_neg _ (by simp; omega), if_neg h4]
          rfl

/-- Helper: a transaction is assigned a bracket label iff it passes the
guard and its age lies in that bracket's range. -/
lemma ageCategoryOf_mem_iff (cy : ℤ) (tx : NadlanTransaction)
    (cat : String) (low high : ℤ)
    (hc : (cat, low, high) ∈ ageCategories) :
    ageCategoryOf cy tx = some cat ↔
      (validForAge tx = true ∧ low ≤ cy - tx.building_year.getD 0 ∧
        cy - tx.building_year.getD 0 ≤ high) := by
  by_cases hv : validForAge tx
  · simp only [ageCategoryOf, if_pos hv, hv, true_and]
    rw [ageFind_eq]
    simp only [ageCategories, List.mem_cons, List.mem_singleton,
      List.not_mem_nil, or_false] at hc
    rcases hc with h | h | h | h <;>
      (simp only [Prod.mk.injEq] at h; obtain ⟨rfl, rfl, rfl⟩ := h) <;>
      split_ifs with hh1 hh2 hh3 hh4 <;>
      simp_all <;> omega
  · simp only [ageCategoryOf, if_neg hv]
    constructor
    · intro h
      cases h
    · intro h
      exact absurd h.1 hv

/-- Counterexample for C7: a transaction with a valid construction year
(2022 > 1900, three years old at current year 2025) but a zero deal
amount is bucketed into no bracket, although the claim requires it in
the [0,5] bracket. -/
theorem age_bucket_amount_cex :
    zeroAmountTx.building_year = some 2022 ∧ (1900 : ℤ) < 2022 ∧
    (0 : ℤ) ≤ 2025 - 2022 ∧ (2025 - 2022 : ℤ) ≤ 5 ∧
    (∀ cat, zeroAmountTx ∉ age_data 2025 [zeroAmountTx] cat) := by
  refine ⟨rfl, by norm_num, by norm_num, by norm_num, ?_⟩
  intro cat hmem
  have hnone : ageCategoryOf 2025 zeroAmountTx = none := by
    norm_num [ageCategoryOf, validForAge, zeroAmountTx, iTruthy]
  have h2 := (List.mem_filter.1 hmem).2
  rw [hnone] at h2
  simp at h2

/-- C7 (amended): the building-age analysis buckets exactly the
transactions with a truthy construction year above 1900 and a positive
deal amount, assigning a transaction the bracket of the four —
[0,5], [6,15], [16,30], [31,200] — whose range contains
current year − construction year (none when the age falls outside every
range); transactions with an absent or ≤1900 year or non-positive amount
are in no bracket, and every emitted analysis row comes from a non-empty
bracket. -/
theorem analyze_building_age_buckets :
    ∀ (cy : ℤ) (txs : List NadlanTransaction) (tx : NadlanTransaction),
      (∀ cat low high, (cat, low, high) ∈ ageCategories →
        (tx ∈ age_data cy txs cat ↔
          tx ∈ txs ∧ iTruthy tx.building_year = true ∧
            1900 < tx.building_year.getD 0 ∧ 0 < tx.deal_amount ∧
            low ≤ cy - tx.building_year.getD 0 ∧
            cy - tx.building_year.getD 0 ≤ high)) ∧
      ((tx.building_year = none ∨ tx.building_year.getD 0 ≤ 1900 ∨
          tx.deal_amount ≤ 0) →
        ∀ cat, tx ∉ age_data cy txs cat) ∧
      (∀ row ∈ analyze_building_age cy txs,
        age_data cy txs row.category ≠ []) := by
  intro cy txs tx
  refine ⟨?_, ?_, ?_⟩
  · intro cat low high hc
    rw [age_data, List.mem_filter]
    have hiff := ageCategoryOf_mem_iff cy tx cat low high hc
    constructor
    · rintro ⟨hm, hb⟩
      rw [beq_iff_eq] at hb
      obtain ⟨hv, hr⟩ := hiff.1 hb
      simp only [validForAge, Bool.and_eq_true, decide_eq_true_eq] at hv
      exact ⟨hm, hv.1.1, hv.1.2, hv.2, hr.1, hr.2⟩
    · rintro ⟨hm, ht, hy, ha, hl, hr⟩
      refine ⟨hm, ?_⟩
      rw [beq_iff_eq]
      refine hiff.2 ⟨?_, hl, hr⟩
      simp only [validForAge, Bool.and_eq_true, decide_eq_true_eq]
      exact ⟨⟨ht, hy⟩, ha⟩
  · intro hbad cat hmem
    have hb := (List.mem_filter.1 hmem).2
    rw [beq_iff_eq] at hb
    have hv : validForAge tx = true := by
      have := hb ▸ (rfl : ageCategoryOf cy tx = ageCategoryOf cy tx)
      by_contra hvf
      simp only [Bool.not_eq_true] at hvf
      rw [ageCategoryOf, if_neg (by simp [hvf])] at hb
      cases hb
    simp only [validForAge, Bool.and_eq_true, decide_eq_true_eq] at hv
    rcases hbad with h | h | h
    · rw [h] at hv
      simp [iTruthy] at hv
    · have h12 := hv.1.2
      omega
    · exact absurd hv.2 (not_lt.2 h)
  · intro row hrow
    obtain ⟨c, hc, hbody⟩ := List.mem_filterMap.1 hrow
    by_cases h1 : age_data cy txs c.1 = []
    · rw [if_pos h1] at hbody
      cases hbody
    · rw [if_neg h1] at hbody
      simp only [bne_iff_ne, ne_eq] at hbody
      split_ifs at hbody with h2
      all_goals try cases hbody
      all_goals exact h1

/-- Witness for C7 (amended): at current year 2025 a priced transaction
built in 2020 (age 5) lands in the [0,5] bracket and one built in 2019
(age 6) lands in the [6,15] bracket. -/
theorem analyze_building_age_buckets_witness :
    boundary5Tx ∈ age_data 2025 [boundary5Tx] "חדש (0-5 שנים)" ∧
    boundary6Tx ∈ age_data 2025 [boundary6Tx] "חדש יחסית (6-15 שנים)" := by
  constructor
  · exact ((analyze_building_age_buckets 2025 [boundary5Tx] boundary5Tx).1
      "חדש (0-5 שנים)" 0 5 (by simp [ageCategories])).2
      ⟨by simp, by norm_num [boundary5Tx, iTruthy],
       by norm_num [boundary5Tx], by norm_num [boundary5Tx],
       by norm_num [boundary5Tx], by norm_num [boundary5Tx]⟩
  · exact ((analyze_building_age_buckets 2025 [boundary6Tx] boundary6Tx).1
      "חדש יחסית (6-15 שנים)" 6 15 (by simp [ageCategories])).2
      ⟨by simp, by norm_num [boundary6Tx, iTruthy],
       by norm_num [boundary6Tx], by norm_num [boundary6Tx],
       by norm_num [boundary6Tx], by norm_num [boundary6Tx]⟩

/-- Counterexample for C5: in a concrete simulated total outage (every
source client returns an empty list without raising), with AI requested
and no credential, the orchestrator's errors list is empty — not, as the
claim states, non-empty. -/
theorem orchestrator_outage_errors_cex :
    (run_market_analysis 0 2025 (fun _ => 0) (fun _ => 0)
      "הרצל 15, תל אביב" "דירה" none none none none true false
      (.error "no api") outageOutcomes).1.errors = [] := by
  simp [run_market_analysis, outageOutcomes]

/-- C5 (amended): if every source client returns an empty list and an AI
summary is requested without the text-generation credential, the run
still returns a report whose transactions and listings are empty, whose
value estimation is absent, whose AI-summary field holds the fixed
placeholder string — and whose errors list is empty (an empty result
returned without an exception records no error string). -/
theorem orchestrator_outage_report :
    ∀ (today cy : ℤ) (yearOf monthOf : ℤ → ℤ) (address ptype : String)
      (rooms : Option ℚ) (floor : Option ℤ) (size : Option ℚ)
      (byear : Option ℤ) (api_call : Except String String),
      (run_market_analysis today cy yearOf monthOf address ptype
        rooms floor size byear true false api_call
        outageOutcomes).1.transactions = [] ∧
      (run_market_analysis today cy yearOf monthOf address ptype
        rooms floor size byear true false api_call
        outageOutcomes).1.current_listings = [] ∧
      (run_market_analysis today cy yearOf monthOf address ptype
        rooms floor size byear true false api_call
        outageOutcomes).1.value_estimation = none ∧
      (run_market_analysis today cy yearOf monthOf address ptype
        rooms floor size byear true false api_call
        outageOutcomes).1.ai_summary = placeholderAISummary ∧
      (run_market_analysis today cy yearOf monthOf address ptype
        rooms floor size byear true false api_call
        outageOutcomes).1.errors = [] := by
  intro today cy yearOf monthOf address ptype rooms floor size byear api_call
  refine ⟨?_, ?_, ?_, ?_, ?_⟩ <;>
    simp [run_market_analysis, outageOutcomes, generate_report,
      merge_transactions, dedupLoop, build_comparables, estimate_value,
      validPool, closedValid, allValid, generate_ai_summary,
      placeholderAISummary]

/-- Helper: the progress trace of a run, spelled out as the
concatenation of its per-stage segments. -/
lemma run_trace_eq (today cy : ℤ) (yearOf monthOf : ℤ → ℤ)
    (address ptype : String) (rooms : Option ℚ) (floor : Option ℤ)
    (size : Option ℚ) (byear : Option ℤ) (include_ai api_key : Bool)
    (api_call : Except String String) (fo : FetchOutcomes) :
    (run_market_analysis today cy yearOf monthOf address ptype rooms floor
      size byear include_ai api_key api_call fo).2 =
      (([("מתחיל ניתוח שוק...", 0.0),
        ("שולף עסקאות מ-nadlan.gov.il (רחוב)...", 0.05)] :
          List (String × ℚ)) ++
      ((match fo.street with
       | .ok txs =>
         [("נמצאו " ++ toString txs.length ++ " עסקאות ברחוב", 0.15)]
       | .error _ => []) : List (String × ℚ)) ++
      ((if (parse_address_parts address).city ≠ "" ∧
          (parse_address_parts address).neighborhood ≠ "" then
        ("שולף עסקאות בשכונה: " ++
            (parse_address_parts address).neighborhood ++ "...", 0.20) ::
          (match fo.neighborhood with
           | .ok txs =>
             [("נמצאו " ++ toString txs.length ++ " עסקאות בשכונה", 0.30)]
           | .error _ => [])
       else []) : List (String × ℚ)) ++
      ((if (parse_address_parts address).city ≠ "" then
        ("שולף עסקאות בעיר: " ++
            (parse_address_parts address).city ++ "...", 0.35) ::
          (match fo.city with
           | .ok txs =>
             [("נמצאו " ++ toString txs.length ++ " עסקאות בעיר", 0.45)]
           | .error _ => [])
       else []) : List (String × ℚ)) ++
      ([("שולף נכסים מפורסמים מיד2...", 0.50)] : List (String × ℚ)) ++
      ((if (parse_address_parts address).city ≠ "" then
        match fo.listings with
        | .ok l =>
          [("נמצאו " ++ toString l.length ++ " נכסים מפורסמים", 0.60)]
        | .error _ => []
       else []) : List (String × ℚ)) ++
      ([("מנתח נתונים...", 0.65), ("ניתוח נתונים הושלם", 0.75)] :
          List (String × ℚ)) ++
      ((if include_ai then
        [("מייצר סיכום AI...", 0.80), ("סיכום AI הושלם", 0.95)]
       else []) : List (String × ℚ)) ++
      [("הדו\"ח מוכן!", 1.0)] : List (String × ℚ)) := rfl

set_option maxHeartbeats 4000000 in
/-- C8: in every orchestrator run the emitted progress fractions are
monotonically non-decreasing, each lies in [0,1], and the final
invocation carries fraction 1.0. -/
theorem progress_trace_monotone :
    ∀ (today cy : ℤ) (yearOf monthOf : ℤ → ℤ) (address ptype : String)
      (rooms : Option ℚ) (floor : Option ℤ) (size : Option ℚ)
      (byear : Option ℤ) (include_ai api_key : Bool)
      (api_call : Except String String) (fo : FetchOutcomes),
      (((run_market_analysis today cy yearOf monthOf address ptype rooms
          floor size byear include_ai api_key api_call fo).2).map
            Prod.snd).Chain' (· ≤ ·) ∧
      (∀ q ∈ ((run_market_analysis today cy yearOf monthOf address ptype
          rooms floor size byear include_ai api_key api_call fo).2).map
            Prod.snd, 0 ≤ q ∧ q ≤ 1) ∧
      (((run_market_analysis today cy yearOf monthOf address ptype rooms
          floor size byear include_ai api_key api_call fo).2).map
            Prod.snd).getLast? = some 1 := by
  intro today cy yearOf monthOf address ptype rooms floor size byear
    include_ai api_key api_call fo
  rw [run_trace_eq]
  obtain ⟨fs, fn, fc, fl⟩ := fo
  rcases fs with e1 | l1 <;> rcases fn with e2 | l2 <;>
    rcases fc with e3 | l3 <;> rcases fl with e4 | l4 <;>
    rcases include_ai with _ | _ <;>
    by_cases hg1 : (parse_address_parts address).city = "" <;>
    by_cases hg2 : (parse_address_parts address).neighborhood = "" <;>
    refine ⟨?_, ?_, ?_⟩ <;>
    norm_num [hg1, hg2, List.chain'_cons, List.forall_mem_cons,
      List.getLast?]

/-- Witness for C8: a concrete outage run's final progress fraction is
1.0. -/
theorem progress_trace_monotone_witness :
    (((run_market_analysis 0 2025 (fun _ => 0) (fun _ => 0)
      "הרצל 15, תל אביב" "דירה" none none none none true false
      (.error "x") outageOutcomes).2).map Prod.snd).getLast? = some 1 :=
  (progress_trace_monotone 0 2025 (fun _ => 0) (fun _ => 0)
    "הרצל 15, תל אביב" "דירה" none none none none true false
    (.error "x") outageOutcomes).2.2

/-- Helper: splitting never yields an empty segment list. -/
lemma splitOnChar_ne_nil (sep : Char) (l : List Char) :
    splitOnChar sep l ≠ [] := by
  induction l with
  | nil => simp [splitOnChar]
  | cons c cs ih =>
    simp only [splitOnChar]
    split_ifs with h
    · simp
    · rcases hsp : splitOnChar sep cs with _ | ⟨r, rs⟩ <;> simp

/-- C6: the address parser is pure and lexical — after stripping a
leading "רחוב" marker and splitting on commas, the last segment is the
city (when at least two segments exist), the middle segment is the
neighborhood exactly when there are three segments, and the first
segment splits at its first embedded digit run into street name and
house number; with zero commas the whole string is the street side and
city/neighborhood stay empty, and an input without digits yields an
empty number. Includes the spec's concrete examples. -/
theorem parse_address_parts_spec :
    (∀ address : String, 2 ≤ (addressSegments address).length →
      (parse_address_parts address).city =
        String.mk (trimL (addressSegments address).getLast!)) ∧
    (∀ address : String, (parse_address_parts address).neighborhood =
      if (addressSegments address).length = 3
      then String.mk (trimL (addressSegments address)[1]!) else "") ∧
    (∀ address : String, (addressSegments address).length = 1 →
      (parse_address_parts address).city = "" ∧
      (parse_address_parts address).neighborhood = "") ∧
    (∀ address : String,
      match splitAtFirstDigits (trimL (addressSegments address).head!) with
      | some pd =>
        (parse_address_parts address).street = String.mk (trimL pd.1) ∧
        (parse_address_parts address).number = String.mk pd.2
      | none =>
        (parse_address_parts address).street =
          String.mk (trimL (addressSegments address).head!) ∧
        (parse_address_parts address).number = "") ∧
    parse_address_parts "Herzl 15, Tel Aviv" =
      { street := "Herzl", number := "15", city := "Tel Aviv",
        neighborhood := "" } ∧
    parse_address_parts "Florentin, Tel Aviv" =
      { street := "Florentin", number := "", city := "Tel Aviv",
        neighborhood := "" } := by
  have hlen : ∀ address : String, 1 ≤ (addressSegments address).length := by
    intro address
    have := splitOnChar_ne_nil ','
      (stripStreetWord (trimL address.data))
    simp only [addressSegments, List.length_map]
    rcases h : splitOnChar ',' (stripStreetWord (trimL address.data)) with
      _ | ⟨r, rs⟩
    · exact absurd h this
    · simp
  refine ⟨?_, ?_, ?_, ?_, by decide, by decide⟩
  · intro address h
    simp only [parse_address_parts, addressSegments] at *
    rw [if_pos h]
  · intro address
    simp only [parse_address_parts, addressSegments] at *
  · intro address h
    simp only [parse_address_parts, addressSegments] at *
    rw [if_neg (by omega), if_neg (by omega)]
    exact ⟨rfl, rfl⟩
  · intro address
    have h1 := hlen address
    simp only [parse_address_parts, addressSegments] at *
    by_cases h2 : 2 ≤ (List.map trimL
        (splitOnChar ',' (stripStreetWord (trimL address.data)))).length
    · rw [if_pos h2]
      rcases hd : splitAtFirstDigits (trimL (List.map trimL
          (splitOnChar ',' (stripStreetWord (trimL address.data)))).head!) with
        _ | ⟨pre, digs⟩ <;> simp [hd]
    · rw [if_neg h2, if_pos (by omega)]
      rcases hd : splitAtFirstDigits (trimL (List.map trimL
          (splitOnChar ',' (stripStreetWord (trimL address.data)))).head!) with
        _ | ⟨pre, digs⟩ <;> simp [hd]

/-- Witness for C6: the city conjunct applied at the spec's concrete
two-segment example. -/
theorem parse_address_parts_spec_witness :
    (parse_address_parts "Herzl 15, Tel Aviv").city =
      String.mk (trimL (addressSegments "Herzl 15, Tel Aviv").getLast!) :=
  parse_address_parts_spec.1 "Herzl 15, Tel Aviv" (by decide)

end REMarket
